import Mathlib

/-!
Verification of the UK News Scraper core (src/scraper.py, src/run_for_n8n.py,
src/scraper_server.py) via a shallow embedding in Lean 4.

External collaborators (the `requests` HTTP client, the `dateutil` date
parser, the `BeautifulSoup`/lxml HTML parser) are modelled either as explicit
function parameters (the network, the date parser) or as small executable
models of the documented library behaviour on the fragment class the program
feeds them.  Everything else is translated directly from the Python source.
-/

set_option maxRecDepth 20000

namespace UKNews

/-- The `Article` dataclass of scraper.py: one normalized news record. -/
structure Article where
  source : String
  title : String
  url : String
  summary : String
  author : String
  published_date : String
deriving DecidableEq, Repr

/-! ## Fetch Client: polite_get (scraper.py lines 69-83)

The `requests` library is modelled by a function `net : String → NetResult`
giving, for each URL, the outcome of `requests.get(url, ...)` followed by
`raise_for_status()`: either a terminal response with its status code and
body, a connection timeout (`requests.exceptions.Timeout`), or any other
transport error (`requests.exceptions.RequestException`).
`raise_for_status` raises `HTTPError` exactly when `400 ≤ status < 600`. -/

/-- Outcome of one `requests.get` call: a terminal HTTP response, a timeout
exception, or another transport/network exception. -/
inductive NetResult where
  | resp (status : Nat) (body : String)
  | timeout
  | netError
deriving DecidableEq, Repr

/-- A returned HTTP response (the fields of `requests.Response` the program
uses). -/
structure Response where
  status : Nat
  body : String
deriving DecidableEq, Repr

/-- `requests.Response.raise_for_status` raises `HTTPError` for 4xx/5xx. -/
def raiseForStatusRaises (status : Nat) : Bool :=
  400 ≤ status && status < 600

/-- scraper.py `polite_get`: HTTP GET with error handling.  An empty URL
short-circuits to `none` without consulting the network; a timeout, an HTTP
error status, or any other transport error is absorbed into `none`. -/
def polite_get (net : String → NetResult) (url : String) : Option Response :=
  if url = "" then none
  else
    match net url with
    | NetResult.resp status body =>
        if raiseForStatusRaises status then none else some ⟨status, body⟩
    | NetResult.timeout => none
    | NetResult.netError => none

/-! ## Date Normalizer: parse_date (scraper.py lines 86-96)

`dateutil.parser.parse` is modelled by a parameter
`parse : String → Option PyDatetime`: `none` covers both an exception raised
by the parser (caught by the `except` clause) and a `None` result (guarded by
`if dt`). -/

/-- A Python `datetime` value: wall-clock calendar fields plus an optional
fixed UTC offset in minutes (`none` models a naive datetime, `tzinfo is
None`). -/
structure PyDatetime where
  year : Int
  month : Nat
  day : Nat
  hour : Nat
  minute : Nat
  second : Nat
  tzOffsetMinutes : Option Int
deriving DecidableEq, Repr

/-- Left-pad the decimal representation of `n` with zeros to width `w`. -/
def padNat (w : Nat) (n : Nat) : String :=
  let s := toString n
  if s.length < w then String.mk (List.replicate (w - s.length) '0') ++ s else s

/-- Python `dt.strftime("%Y-%m-%dT%H:%M:%SZ")`: formats the wall-clock
fields of the datetime and appends a literal `Z`; it performs no timezone
conversion. -/
def strftimeZ (dt : PyDatetime) : String :=
  padNat 4 dt.year.toNat ++ "-" ++ padNat 2 dt.month ++ "-" ++ padNat 2 dt.day ++
    "T" ++ padNat 2 dt.hour ++ ":" ++ padNat 2 dt.minute ++ ":" ++ padNat 2 dt.second ++ "Z"

/-- Python `dt.replace(tzinfo=timezone.utc)`: attaches the UTC offset
without touching the wall-clock fields. -/
def replaceTzUTC (dt : PyDatetime) : PyDatetime :=
  { dt with tzOffsetMinutes := some 0 }

/-- scraper.py `parse_date`: normalise a date string, or return the raw
string unchanged on parse failure; empty input yields empty output. -/
def parse_date (parse : String → Option PyDatetime) (raw : String) : String :=
  if raw = "" then ""
  else
    match parse raw with
    | none => raw
    | some dt =>
        strftimeZ (if dt.tzOffsetMinutes = none then replaceTzUTC dt else dt)

/-! Calendar arithmetic used only to *state* what "the same instant
expressed in UTC" means (the civil-from-days / days-from-civil algorithms
on the proleptic Gregorian calendar). -/

/-- Days since 1970-01-01 of the civil date `(y, m, d)`. -/
def daysFromCivil (y : Int) (m : Nat) (d : Nat) : Int :=
  let y' : Int := if m ≤ 2 then y - 1 else y
  let era : Int := Int.fdiv y' 400
  let yoe : Nat := (y' - era * 400).toNat
  let mp : Nat := (m + 9) % 12
  let doy : Nat := (153 * mp + 2) / 5 + d - 1
  let doe : Nat := yoe * 365 + yoe / 4 - yoe / 100 + doy
  era * 146097 + (doe : Int) - 719468

/-- Civil date `(y, m, d)` of the day `z` days after 1970-01-01. -/
def civilFromDays (z0 : Int) : Int × Nat × Nat :=
  let z : Int := z0 + 719468
  let era : Int := Int.fdiv z 146097
  let doe : Nat := (z - era * 146097).toNat
  let yoe : Nat := (doe - doe / 1460 + doe / 36524 - doe / 146096) / 365
  let y : Int := (yoe : Int) + era * 400
  let doy : Nat := doe - (365 * yoe + yoe / 4 - yoe / 100)
  let mp : Nat := (5 * doy + 2) / 153
  let d : Nat := doy - (153 * mp + 2) / 5 + 1
  let m : Nat := if mp < 10 then mp + 3 else mp - 9
  (if m ≤ 2 then y + 1 else y, m, d)

/-- The instant a `PyDatetime` denotes, in seconds since the epoch; a naive
value is taken to be UTC (as the spec prescribes for this program). -/
def instantOf (dt : PyDatetime) : Int :=
  86400 * daysFromCivil dt.year dt.month dt.day +
    3600 * (dt.hour : Int) + 60 * (dt.minute : Int) + (dt.second : Int) -
    60 * (dt.tzOffsetMinutes.getD 0)

/-- The same instant as `dt`, expressed in UTC (offset zero): Python's
`dt.astimezone(timezone.utc)` for aware values, UTC-attachment for naive
ones. -/
def astimezoneUTC (dt : PyDatetime) : PyDatetime :=
  let total : Int := instantOf dt
  let days : Int := Int.fdiv total 86400
  let sod : Nat := (Int.emod total 86400).toNat
  let c := civilFromDays days
  { year := c.1, month := c.2.1, day := c.2.2,
    hour := sod / 3600, minute := sod % 3600 / 60, second := sod % 60,
    tzOffsetMinutes := some 0 }

/-- `dateutil.parser.parse` restricted to the single RFC-822 input used to
exhibit the failure: it parses `"Wed, 19 Feb 2026 09:00:00 +0500"` to an
aware datetime with wall clock 09:00:00 and a +5 h (300 min) offset, exactly
as the real library does. -/
def dateutilOnPlus0500 : String → Option PyDatetime := fun s =>
  if s = "Wed, 19 Feb 2026 09:00:00 +0500" then
    some ⟨2026, 2, 19, 9, 0, 0, some 300⟩
  else none

/-! ## Aggregator (run_for_n8n.py lines 79-102, scraper_server.py lines 53-62)

Each adapter invocation is modelled as `Except String (List Article)`:
`Except.ok l` when the adapter returns the list `l`, `Except.error e` when it
raises an exception with message `e` (caught by the aggregator loop). -/

/-- The articles one adapter contributes: its list on success, nothing when
it raised. -/
def okContrib (r : Except String (List Article)) : List Article :=
  match r with
  | Except.ok l => l
  | Except.error _ => []

/-- The aggregator loop: `for name, fn in scrapers: try: all_articles.extend(fn())
except: warn`. Successes are appended in adapter-invocation order; a raising
adapter contributes nothing and never aborts the loop. -/
def runAdapters (results : List (Except String (List Article))) : List Article :=
  results.foldl
    (fun acc r =>
      match r with
      | Except.ok l => acc ++ l
      | Except.error _ => acc) []

/-- The single fatal "no data collected" condition, decided after all
adapters were attempted: `if not all_articles: sys.exit(1)` in
run_for_n8n.py, `raise RuntimeError("No articles collected …")` in
scraper_server.py. -/
def runNoData (results : List (Except String (List Article))) : Bool :=
  (runAdapters results).isEmpty

theorem aggFold_extend (rs : List (Except String (List Article)))
    (acc : List Article) :
    rs.foldl
      (fun acc r =>
        match r with
        | Except.ok l => acc ++ l
        | Except.error _ => acc) acc = acc ++ runAdapters rs := by
  induction rs generalizing acc with
  | nil => simp [runAdapters]
  | cons r rs ih =>
      cases r with
      | ok l =>
          simp only [runAdapters, List.foldl_cons, List.nil_append]
          rw [ih (acc ++ l), ih l, List.append_assoc]
      | error e =>
          simp only [runAdapters, List.foldl_cons]
          rw [ih acc, ih []]
          simp

theorem runAdapters_cons (r : Except String (List Article))
    (rs : List (Except String (List Article))) :
    runAdapters (r :: rs) = okContrib r ++ runAdapters rs := by
  cases r with
  | ok l =>
      show List.foldl _ ([] ++ l) rs = _
      rw [aggFold_extend rs ([] ++ l), List.nil_append]
      rfl
  | error e =>
      show List.foldl _ [] rs = _
      rw [aggFold_extend rs []]
      rfl

theorem runAdapters_four (r1 r2 r3 r4 : Except String (List Article)) :
    runAdapters [r1, r2, r3, r4] =
      okContrib r1 ++ okContrib r2 ++ okContrib r3 ++ okContrib r4 := by
  rw [runAdapters_cons, runAdapters_cons, runAdapters_cons, runAdapters_cons]
  simp [runAdapters, List.append_assoc]

/-! ## Claim theorems: Fetch Client, Date Normalizer, Aggregator -/

/-- Claim C1 (code bug): `parse_date` is supposed to return the parsed
instant as a canonical UTC timestamp, re-expressing values carrying a
non-UTC offset in UTC.  The code formats the *wall-clock* fields with
`strftime` and appends a literal `Z` without calling `astimezone`: on the
RFC-822 input `"Wed, 19 Feb 2026 09:00:00 +0500"` it returns
`"2026-02-19T09:00:00Z"`, while the same instant expressed in UTC is
`"2026-02-19T04:00:00Z"`. -/
theorem parse_date_offset_not_converted :
    parse_date dateutilOnPlus0500 "Wed, 19 Feb 2026 09:00:00 +0500" =
        "2026-02-19T09:00:00Z" ∧
    strftimeZ (astimezoneUTC ⟨2026, 2, 19, 9, 0, 0, some 300⟩) =
        "2026-02-19T04:00:00Z" ∧
    parse_date dateutilOnPlus0500 "Wed, 19 Feb 2026 09:00:00 +0500" ≠
      strftimeZ (astimezoneUTC ⟨2026, 2, 19, 9, 0, 0, some 300⟩) := by
  refine ⟨by decide, by decide, by decide⟩

/-- Claim C6: `parse_date ""` returns `""`, and on any input whose parse
fails the original raw string is returned unchanged (the function is total,
so it never raises). -/
theorem parse_date_failure_passthrough (parse : String → Option PyDatetime)
    (raw : String) (h : parse raw = none) :
    parse_date parse "" = "" ∧ parse_date parse raw = raw := by
  refine ⟨rfl, ?_⟩
  unfold parse_date
  by_cases hr : raw = ""
  · simp [hr]
  · simp [hr, h]

/-- Witness for C6 at the concrete unparseable input used by the
repository's own test-suite. -/
theorem parse_date_failure_passthrough_apply :
    parse_date (fun _ => none) "" = "" ∧
    parse_date (fun _ => none) "not-a-date-at-all-xyz" = "not-a-date-at-all-xyz" :=
  parse_date_failure_passthrough (fun _ => none) "not-a-date-at-all-xyz" rfl

/-- Claim C7: `polite_get` returns `none` for an empty URL without
consulting the network at all (the result is independent of the network
function); for a non-empty URL it returns the response exactly when the
terminal status is not an HTTP-error status (`raise_for_status` does not
raise), and a timeout, an HTTP error status, or any other transport error is
absorbed into `none` instead of propagating. -/
theorem polite_get_spec (net : String → NetResult) (url : String)
    (h : url ≠ "") :
    (∀ net' : String → NetResult, polite_get net' "" = none) ∧
    (∀ s b, net url = NetResult.resp s b →
      (polite_get net url = some ⟨s, b⟩ ↔ raiseForStatusRaises s = false)) ∧
    (∀ s b, net url = NetResult.resp s b → raiseForStatusRaises s = true →
      polite_get net url = none) ∧
    (net url = NetResult.timeout → polite_get net url = none) ∧
    (net url = NetResult.netError → polite_get net url = none) := by
  refine ⟨fun net' => rfl, ?_, ?_, ?_, ?_⟩
  · intro s b hresp
    unfold polite_get
    simp only [if_neg h, hresp]
    constructor
    · intro hsome
      by_contra hraise
      simp [Bool.not_eq_false] at hraise
      simp [hraise] at hsome
    · intro hok
      simp [hok]
  · intro s b hresp hraise
    unfold polite_get
    simp [if_neg h, hresp, hraise]
  · intro ht
    unfold polite_get
    simp [if_neg h, ht]
  · intro hn
    unfold polite_get
    simp [if_neg h, hn]

/-- Witness for C7 at a concrete network and URL: a 200 response is
returned, and the same URL under a timeout network yields `none`. -/
theorem polite_get_spec_apply :
    (∀ net' : String → NetResult, polite_get net' "" = none) ∧
    (∀ s b, (fun _ : String => NetResult.resp 200 "ok") "https://example.com" =
        NetResult.resp s b →
      (polite_get (fun _ => NetResult.resp 200 "ok") "https://example.com" =
          some ⟨s, b⟩ ↔ raiseForStatusRaises s = false)) ∧
    (∀ s b, (fun _ : String => NetResult.resp 200 "ok") "https://example.com" =
        NetResult.resp s b → raiseForStatusRaises s = true →
      polite_get (fun _ => NetResult.resp 200 "ok") "https://example.com" = none) ∧
    ((fun _ : String => NetResult.resp 200 "ok") "https://example.com" =
        NetResult.timeout →
      polite_get (fun _ => NetResult.resp 200 "ok") "https://example.com" = none) ∧
    ((fun _ : String => NetResult.resp 200 "ok") "https://example.com" =
        NetResult.netError →
      polite_get (fun _ => NetResult.resp 200 "ok") "https://example.com" = none) :=
  polite_get_spec (fun _ => NetResult.resp 200 "ok") "https://example.com"
    (by decide)

/-- Claim C2: the aggregated run fails with the "no data collected"
condition iff the combined list (successful adapters' articles appended in
adapter-invocation order) is empty after all four adapters were attempted;
when exactly one adapter raises and the other three return non-empty lists
(each of the four positions is covered), the run succeeds and the combined
list is the concatenation of the three successful lists, its count their
sum. -/
theorem aggregator_spec (r1 r2 r3 r4 : Except String (List Article))
    (e : String) (a b c : List Article)
    (ha : a ≠ []) (hb : b ≠ []) (hc : c ≠ []) :
    (runNoData [r1, r2, r3, r4] = true ↔
      okContrib r1 ++ okContrib r2 ++ okContrib r3 ++ okContrib r4 = []) ∧
    runAdapters [r1, r2, r3, r4] =
      okContrib r1 ++ okContrib r2 ++ okContrib r3 ++ okContrib r4 ∧
    (runNoData [Except.error e, Except.ok a, Except.ok b, Except.ok c] = false ∧
      runAdapters [Except.error e, Except.ok a, Except.ok b, Except.ok c] =
        a ++ b ++ c ∧
      (runAdapters [Except.error e, Except.ok a, Except.ok b, Except.ok c]).length =
        a.length + b.length + c.length) ∧
    (runNoData [Except.ok a, Except.error e, Except.ok b, Except.ok c] = false ∧
      runAdapters [Except.ok a, Except.error e, Except.ok b, Except.ok c] =
        a ++ b ++ c) ∧
    (runNoData [Except.ok a, Except.ok b, Except.error e, Except.ok c] = false ∧
      runAdapters [Except.ok a, Except.ok b, Except.error e, Except.ok c] =
        a ++ b ++ c) ∧
    (runNoData [Except.ok a, Except.ok b, Except.ok c, Except.error e] = false ∧
      runAdapters [Except.ok a, Except.ok b, Except.ok c, Except.error e] =
        a ++ b ++ c) := by
  have key := runAdapters_four r1 r2 r3 r4
  refine ⟨?_, key, ?_, ?_, ?_, ?_⟩
  · unfold runNoData
    rw [key]
    simp [List.isEmpty_iff]
  · refine ⟨?_, ?_, ?_⟩
    · unfold runNoData
      rw [runAdapters_four]
      simp [List.isEmpty_iff, okContrib, ha]
    · rw [runAdapters_four]
      simp [okContrib]
    · rw [runAdapters_four]
      simp [okContrib, Nat.add_assoc]
  · constructor
    · unfold runNoData
      rw [runAdapters_four]
      simp [List.isEmpty_iff, okContrib, ha]
    · rw [runAdapters_four]
      simp [okContrib]
  · constructor
    · unfold runNoData
      rw [runAdapters_four]
      simp [List.isEmpty_iff, okContrib, ha]
    · rw [runAdapters_four]
      simp [okContrib]
  · constructor
    · unfold runNoData
      rw [runAdapters_four]
      simp [List.isEmpty_iff, okContrib, ha]
    · rw [runAdapters_four]
      simp [okContrib]

/-- Witness for C2: one raising adapter among three concrete one-article
adapters. -/
theorem aggregator_spec_apply :
    (runNoData [Except.error "boom",
        Except.ok [Article.mk "The Guardian" "t1" "u1" "s1" "a1" "d1"],
        Except.ok [Article.mk "The Independent" "t2" "u2" "s2" "a2" "d2"],
        Except.ok [Article.mk "Sky News" "t3" "u3" "s3" "a3" "d3"]] = false) ∧
    (runAdapters [Except.error "boom",
        Except.ok [Article.mk "The Guardian" "t1" "u1" "s1" "a1" "d1"],
        Except.ok [Article.mk "The Independent" "t2" "u2" "s2" "a2" "d2"],
        Except.ok [Article.mk "Sky News" "t3" "u3" "s3" "a3" "d3"]]).length = 3 := by
  have h := aggregator_spec (Except.error "boom")
    (Except.ok [Article.mk "The Guardian" "t1" "u1" "s1" "a1" "d1"])
    (Except.ok [Article.mk "The Independent" "t2" "u2" "s2" "a2" "d2"])
    (Except.ok [Article.mk "Sky News" "t3" "u3" "s3" "a3" "d3"])
    "boom"
    [Article.mk "The Guardian" "t1" "u1" "s1" "a1" "d1"]
    [Article.mk "The Independent" "t2" "u2" "s2" "a2" "d2"]
    [Article.mk "Sky News" "t3" "u3" "s3" "a3" "d3"]
    (by decide) (by decide) (by decide)
  exact ⟨h.2.2.1.1, by rw [h.2.2.1.2.1]; decide⟩

/-! ## HTML Field Extractor: per-source author resolution
(scraper.py lines 125-144 `_bbc_get_author`, 234-254 `_independent_get_author`)

A fetched article page is modelled by the results of the fixed selector
queries the extractor performs on it: for each strategy, `none` when the
element is absent (`select_one`/`find` returned `None`) and `some t` when it
is present with (already stripped) text `t` — which may be the empty
string: an element can exist and have no text, and a `<meta name="author">`
tag can exist with an empty or missing `content` attribute. -/

/-- A BBC article page, as seen through the three queries of
`_bbc_get_author`, in the order the code tries them. -/
structure BBCPage where
  bylineNewContributorsSpan : Option String
  bylineBlockAnchor : Option String
  metaAuthorContent : Option String
deriving DecidableEq, Repr

/-- scraper.py `_bbc_get_author`: `none` for the page models a failed
`polite_get`.  Each `if node: return node.get_text(strip=True)` tests
element *presence*, not text non-emptiness. -/
def bbc_get_author (page : Option BBCPage) : String :=
  match page with
  | none => ""
  | some p =>
      match p.bylineNewContributorsSpan with
      | some t => t
      | none =>
          match p.bylineBlockAnchor with
          | some t => t
          | none =>
              match p.metaAuthorContent with
              | some t => t
              | none => ""

/-- An Independent article page, as seen through the four queries of
`_independent_get_author`, in the order the code tries them: the
`<meta name="author">` content, then the three CSS-selector fallbacks. -/
structure IndependentPage where
  metaAuthorContent : Option String
  authorNameAnchor : Option String
  authorNameClass : Option String
  itempropAuthorName : Option String
deriving DecidableEq, Repr

/-- scraper.py `_independent_get_author`: meta tag first, then the selector
loop; every stage returns as soon as its element is present. -/
def independent_get_author (page : Option IndependentPage) : String :=
  match page with
  | none => ""
  | some p =>
      match p.metaAuthorContent with
      | some t => t
      | none =>
          match p.authorNameAnchor with
          | some t => t
          | none =>
              match p.authorNameClass with
              | some t => t
              | none =>
                  match p.itempropAuthorName with
                  | some t => t
                  | none => ""

/-- The rule the code actually implements, as one definition over an
ordered strategy list: the text of the first strategy whose element is
present (possibly empty text), empty string when every element is absent. -/
def firstPresentText : List (Option String) → String
  | [] => ""
  | some t :: _ => t
  | none :: rest => firstPresentText rest

/-- Modelled from the spec: "Returns the first strategy that yields
non-empty text" — the text of the first strategy whose text is non-empty, a
present-but-empty element being skipped.  Stated for comparison with the
code's `firstPresentText` rule. -/
def firstNonEmptyText : List (Option String) → String
  | [] => ""
  | some t :: rest => if t = "" then firstNonEmptyText rest else t
  | none :: rest => firstNonEmptyText rest

/-- Claim C3 counterexample: on a BBC page whose first byline element is
present with empty text while the second strategy would yield
"Jane Smith", the code returns `""` — the search stops at the present but
empty element, contradicting the claimed first-non-empty-text rule. -/
theorem bbc_author_empty_element_stops_search :
    bbc_get_author (some ⟨some "", some "Jane Smith", none⟩) = "" ∧
    firstNonEmptyText [some "", some "Jane Smith", none] = "Jane Smith" ∧
    bbc_get_author (some ⟨some "", some "Jane Smith", none⟩) ≠
      firstNonEmptyText [some "", some "Jane Smith", none] := by
  refine ⟨rfl, rfl, by decide⟩

/-- Claim C3 (amended): for every article page, the per-source author
extractor returns the text of the first strategy, in that source's fixed
order, whose *element is present* — even when that text is empty — and
returns the empty string (never raising, being total) when no strategy's
element is present or the page fetch failed. -/
theorem author_extractor_first_present (bp : Option BBCPage)
    (ip : Option IndependentPage) :
    bbc_get_author bp =
      (match bp with
        | none => ""
        | some p =>
            firstPresentText
              [p.bylineNewContributorsSpan, p.bylineBlockAnchor,
                p.metaAuthorContent]) ∧
    independent_get_author ip =
      (match ip with
        | none => ""
        | some p =>
            firstPresentText
              [p.metaAuthorContent, p.authorNameAnchor, p.authorNameClass,
                p.itempropAuthorName]) := by
  constructor
  · cases bp with
    | none => rfl
    | some p =>
        rcases p with ⟨s1, s2, s3⟩
        cases s1 <;> cases s2 <;> cases s3 <;> rfl
  · cases ip with
    | none => rfl
    | some p =>
        rcases p with ⟨s1, s2, s3, s4⟩
        cases s1 <;> cases s2 <;> cases s3 <;> cases s4 <;> rfl

/-! ## Text Sanitizer: strip_html (scraper.py lines 113-117)

`BeautifulSoup(raw, "lxml").get_text(strip=True)` is modelled for
tag-structured fragments: the fragment splits into text nodes at markup
tags, each text node is stripped of surrounding whitespace, and the
stripped pieces are concatenated with no separator — the documented
behaviour of `get_text(separator="", strip=True)`. -/

/-- One left-to-right scan splitting a fragment into text runs at markup
tags; the flag records whether the scan currently sits inside a tag. -/
def textRunsAux : Bool → List Char → List (List Char)
  | _, [] => [[]]
  | true, c :: r =>
      if c = '>' then textRunsAux false r else textRunsAux true r
  | false, c :: r =>
      if c = '<' then [] :: textRunsAux true r
      else
        match textRunsAux false r with
        | [] => [[c]]
        | run :: rest => (c :: run) :: rest

/-- The text nodes of a fragment: maximal character runs between tags (the
run boundaries at each tag are kept, so adjacent nodes stay separate). -/
def textRuns (l : List Char) : List (List Char) :=
  textRunsAux false l

/-- Python `str.strip()` on the whitespace the examples use. -/
def isStripChar (c : Char) : Bool :=
  c = ' ' || c = '\t' || c = '\n' || c = '\r'

/-- Strip whitespace from both ends of a character run. -/
def pyStrip (l : List Char) : List Char :=
  ((l.dropWhile isStripChar).reverse.dropWhile isStripChar).reverse

/-- scraper.py `strip_html`: empty input short-circuits; otherwise every
text node is stripped and the results are concatenated with no
separator. -/
def strip_html (raw : String) : String :=
  if raw = "" then ""
  else String.mk ((textRuns raw.data).map pyStrip).flatten

/-- Claim C10: `strip_html` concatenates the stripped text nodes with no
separator, so words from adjacent nodes run together
(`"The <b>Prime Minister</b> said"` ↦ `"ThePrime Ministersaid"`), while a
single-node fragment keeps its text intact
(`"<p>Hello world</p>"` ↦ `"Hello world"`), and `strip_html "" = ""`. -/
theorem strip_html_concatenates_stripped_nodes :
    strip_html "The <b>Prime Minister</b> said" = "ThePrime Ministersaid" ∧
    strip_html "<p>Hello world</p>" = "Hello world" ∧
    strip_html "" = "" := by
  refine ⟨by decide, by decide, rfl⟩

/-! ## Digest Composer: get_html_email_body (scraper.py lines 567-676)

The only impure ingredient, `generated_at = datetime.now(UTC).strftime(...)`,
becomes an explicit parameter.  The Python `defaultdict` keeps keys in
insertion order, modelled by an association list extended at the end on a
fresh key.  The long f-string templates are split at each interpolation
point into named literal segments so the interpolation structure is
explicit; concatenating the segments in order reproduces the templates
verbatim. -/

/-- `by_source[a.source].append(a)` on the insertion-ordered dict: append to
an existing key's list, or add a fresh key at the end. -/
def addToGroup (g : List (String × List Article)) (a : Article) :
    List (String × List Article) :=
  match g with
  | [] => [(a.source, [a])]
  | (k, v) :: rest =>
      if k = a.source then (k, v ++ [a]) :: rest
      else (k, v) :: addToGroup rest a

/-- The grouping loop `for a in articles: by_source[a.source].append(a)`. -/
def by_source (articles : List Article) : List (String × List Article) :=
  articles.foldl addToGroup []

/-- Dict indexing `by_source[s]` (every indexed key is present when the
composer reads it; a missing key yields the defaultdict's fresh `[]`). -/
def lookupGroup (g : List (String × List Article)) (s : String) : List Article :=
  match g with
  | [] => []
  | (k, v) :: rest => if k = s then v else lookupGroup rest s

/-- The dict's key sequence, in insertion order. -/
def groupKeys (g : List (String × List Article)) : List String :=
  g.map Prod.fst

/-- Membership test `s in by_source`. -/
def hasKey (g : List (String × List Article)) (s : String) : Bool :=
  g.any fun p => p.1 = s

/-- The fixed preference list `source_order`. -/
def source_order : List String :=
  ["BBC News", "The Guardian", "The Independent", "Sky News"]

/-- `ordered_sources = [s for s in source_order if s in by_source] +
[s for s in by_source if s not in source_order]`. -/
def ordered_sources (articles : List Article) : List String :=
  (source_order.filter fun s => hasKey (by_source articles) s) ++
    ((groupKeys (by_source articles)).filter fun s => !(source_order.contains s))

/-- The per-source colour map with its `.get(source, "#333333")` default. -/
def source_colours (s : String) : String :=
  if s = "BBC News" then "#bb1919"
  else if s = "The Guardian" then "#052962"
  else if s = "The Independent" then "#e8173d"
  else if s = "Sky News" then "#003e7e"
  else "#333333"

/-- `top10 = by_source[source][:10]`: the articles one source section
renders. -/
def sectionArticles (articles : List Article) (source : String) : List Article :=
  (lookupGroup (by_source articles) source).take 10

/-- Row background: `"#ffffff" if i % 2 == 0 else "#f7f9fc"`. -/
def bgFor (i : Nat) : String :=
  if i % 2 == 0 then "#ffffff" else "#f7f9fc"

/-- `a.author or "—"`. -/
def author_or_dash (a : Article) : String :=
  if a.author = "" then "—" else a.author

/-- `a.published_date[:10] if a.published_date else ""`. -/
def date_slice (a : Article) : String :=
  if a.published_date = "" then "" else a.published_date.take 10

/-! Literal segments of the per-row template (scraper.py lines 608-619),
split at the interpolations `bg, a.url, colour, a.title, bg, a.summary, bg,
a.author or "—", a.published_date[:10] …` in template order. -/

def rowL1 : String := "\n      <tr>\n        <td style=\"padding:10px 12px;border-bottom:1px solid #e0e0e0;background:"

def rowL2 : String := ";vertical-align:top;width:42%;\">\n          <a href=\""

def rowL3 : String := "\" style=\"color:"

def rowL4 : String := ";text-decoration:none;font-weight:600;font-size:13px;line-height:1.4;\" target=\"_blank\">"

def rowL5 : String := "</a>\n        </td>\n        <td style=\"padding:10px 12px;border-bottom:1px solid #e0e0e0;background:"

def rowL6 : String := ";vertical-align:top;font-size:12px;color:#555;line-height:1.5;\">\n          "

def rowL7 : String := "\n        </td>\n        <td style=\"padding:10px 12px;border-bottom:1px solid #e0e0e0;background:"

def rowL8 : String := ";vertical-align:top;font-size:11px;color:#888;white-space:nowrap;\">\n          "

def rowL9 : String := "<br>"

def rowL10 : String := "\n        </td>\n      </tr>"

/-- One table row of the digest (the body of the `for i, a in
enumerate(top10)` loop). -/
def render_row (colour bg : String) (a : Article) : String :=
  rowL1 ++ bg ++ rowL2 ++ a.url ++ rowL3 ++ colour ++ rowL4 ++ a.title ++
    rowL5 ++ bg ++ rowL6 ++ a.summary ++ rowL7 ++ bg ++ rowL8 ++
    author_or_dash a ++ rowL9 ++ date_slice a ++ rowL10

/-- `rows_html` accumulation over `enumerate(top10)`. -/
def rows_html (colour : String) : List Article → Nat → String
  | [], _ => ""
  | a :: rest, i => render_row colour (bgFor i) a ++ rows_html colour rest (i + 1)

/-! Literal segments of the per-section template (scraper.py lines
621-631), split at `colour, colour, source, len(top10), rows_html`. -/

def secL1 : String := "\n  <tr>\n    <td colspan=\"3\" style=\"padding:18px 12px 6px;background:#ffffff;\">\n      <div style=\"border-left:4px solid "

def secL2 : String := ";padding-left:10px;\">\n        <span style=\"font-size:15px;font-weight:700;color:"

def secL3 : String := ";\">"

def secL4 : String := "</span>\n        <span style=\"font-size:11px;color:#999;margin-left:8px;\">"

def secL5 : String := " articles</span>\n      </div>\n    </td>\n  </tr>\n"

def secL6 : String := "\n  <tr><td colspan=\"3\" style=\"padding:8px;background:#ffffff;\"></td></tr>"

/-- One source section: header block plus its rows. -/
def render_section (articles : List Article) (source : String) : String :=
  let colour := source_colours source
  let top10 := sectionArticles articles source
  secL1 ++ colour ++ secL2 ++ colour ++ secL3 ++ source ++ secL4 ++
    toString top10.length ++ secL5 ++ rows_html colour top10 0 ++ secL6

/-- `sections_html` accumulation over `ordered_sources`. -/
def sectionsFor (articles : List Article) : List String → String
  | [] => ""
  | s :: rest => render_section articles s ++ sectionsFor articles rest

/-- The complete `sections_html` string. -/
def sections_html (articles : List Article) : String :=
  sectionsFor articles (ordered_sources articles)

/-- `label_text = f" — {session_label}" if session_label else ""`. -/
def label_text (session_label : String) : String :=
  if session_label = "" then "" else " — " ++ session_label

/-! Literal segments of the outer template (scraper.py lines 635-676),
split at `label_text, generated_at, sections_html`. -/

def emailL1 : String := "<div style=\"font-family:Arial,Helvetica,sans-serif;max-width:700px;margin:0 auto;background:#f0f2f5;padding:20px;\">\n\n  <!\x2D\x2D Header \x2D\x2D>\n  <table width=\"100%\" cellpadding=\"0\" cellspacing=\"0\" style=\"background:#0d1b2a;border-radius:8px 8px 0 0;\">\n    <tr>\n      <td style=\"padding:20px 24px;\">\n        <div style=\"font-size:22px;font-weight:700;color:#ffffff;letter-spacing:-0.3px;\">\n          UK News Digest"

def emailL2 : String := "\n        </div>\n        <div style=\"font-size:12px;color:#aab4c0;margin-top:4px;\">"

def emailL3a : String := "</div>\n      </td>\n      <td style=\"padding:20px 24px;text-align:right;vertical-align:middle;\">\n        <span style=\"font-size:28px;\">🇬🇧</span>\n      </td>\n    </tr>\n  </table>\n\n  <!\x2D\x2D Articles table \x2D\x2D>\n  <table width=\"100%\" cellpadding=\"0\" cellspacing=\"0\"\n         style=\"background:#ffffff;border-radius:0 0 8px 8px;border:1px solid #e0e0e0;border-top:none;\">\n\n    <!\x2D\x2D Column headers \x2D\x2D>\n    <tr style=\"background:#f5f5f5;\">\n"

def emailL3b : String := "      <th style=\"padding:9px 12px;text-align:left;font-size:11px;font-weight:600;color:#666;text-transform:uppercase;letter-spacing:0.5px;border-bottom:2px solid #e0e0e0;width:42%;\">Title</th>\n      <th style=\"padding:9px 12px;text-align:left;font-size:11px;font-weight:600;color:#666;text-transform:uppercase;letter-spacing:0.5px;border-bottom:2px solid #e0e0e0;\">Summary</th>\n"

def emailL3c : String := "      <th style=\"padding:9px 12px;text-align:left;font-size:11px;font-weight:600;color:#666;text-transform:uppercase;letter-spacing:0.5px;border-bottom:2px solid #e0e0e0;width:14%;\">Author / Date</th>\n    </tr>\n\n    "

def emailL3 : String := emailL3a ++ emailL3b ++ emailL3c

def emailL4 : String := "\n\n  </table>\n\n  <!\x2D\x2D Footer \x2D\x2D>\n  <table width=\"100%\" cellpadding=\"0\" cellspacing=\"0\" style=\"margin-top:12px;\">\n    <tr>\n      <td style=\"text-align:center;font-size:11px;color:#aaa;padding:8px;\">\n        Delivered by UK News Scraper &mdash; BBC News &bull; The Guardian &bull; The Independent &bull; Sky News\n      </td>\n    </tr>\n  </table>\n\n</div>"

/-- scraper.py `get_html_email_body`: the Gmail-safe digest fragment. -/
def get_html_email_body (articles : List Article) (session_label : String)
    (generated_at : String) : String :=
  emailL1 ++ label_text session_label ++ emailL2 ++ generated_at ++ emailL3 ++
    sections_html articles ++ emailL4

/-! ## Grouping lemmas -/

/-- The sources of the input in first-seen order — the specification-side
notion the dict's key order is compared against. -/
def firstSeenSources (articles : List Article) : List String :=
  articles.foldl (fun ks a => if a.source ∈ ks then ks else ks ++ [a.source]) []

theorem lookupGroup_addToGroup (g : List (String × List Article)) (a : Article)
    (s : String) :
    lookupGroup (addToGroup g a) s =
      if a.source = s then lookupGroup g s ++ [a] else lookupGroup g s := by
  induction g with
  | nil =>
      by_cases h : a.source = s <;> simp [addToGroup, lookupGroup, h]
  | cons kv rest ih =>
      obtain ⟨k, v⟩ := kv
      by_cases hk : k = a.source
      · by_cases hs : a.source = s
        · simp [addToGroup, lookupGroup, hk, hk.trans hs, hs]
        · have hks : ¬ k = s := fun h => hs (hk.symm.trans h)
          simp [addToGroup, lookupGroup, hk, hks, hs]
      · by_cases hs : k = s
        · have hns : ¬ a.source = s := fun h => hk (hs.trans h.symm)
          have hsa : ¬ s = a.source := fun h => hk (hs.trans h)
          simp [addToGroup, lookupGroup, hs, hsa, hns]
        · simp [addToGroup, lookupGroup, hk, hs, ih]

theorem lookupGroup_foldl (l : List Article) (g : List (String × List Article))
    (s : String) :
    lookupGroup (l.foldl addToGroup g) s =
      lookupGroup g s ++ (l.filter fun a => a.source == s) := by
  induction l generalizing g with
  | nil => simp
  | cons a rest ih =>
      rw [List.foldl_cons, ih, lookupGroup_addToGroup]
      by_cases h : a.source = s
      · simp [List.filter_cons, h, List.append_assoc]
      · simp [List.filter_cons, h]

/-- The group a source indexes is exactly the input's articles with that
source, in their incoming relative order. -/
theorem lookupGroup_by_source (articles : List Article) (s : String) :
    lookupGroup (by_source articles) s =
      articles.filter fun a => a.source == s := by
  have h := lookupGroup_foldl articles [] s
  simpa [by_source, lookupGroup] using h

theorem groupKeys_addToGroup (g : List (String × List Article)) (a : Article) :
    groupKeys (addToGroup g a) =
      if a.source ∈ groupKeys g then groupKeys g
      else groupKeys g ++ [a.source] := by
  induction g with
  | nil => simp [addToGroup, groupKeys]
  | cons kv rest ih =>
      obtain ⟨k, v⟩ := kv
      by_cases hk : k = a.source
      · simp [addToGroup, groupKeys, hk]
      · have hne : ¬ a.source = k := fun h => hk h.symm
        simp only [addToGroup, if_neg hk, groupKeys, List.map_cons]
        simp only [groupKeys] at ih
        rw [ih]
        by_cases hmem : a.source ∈ rest.map Prod.fst
        · simp [List.mem_cons, hne, hmem]
        · simp [List.mem_cons, hne, hmem]

theorem groupKeys_foldl (l : List Article) (g : List (String × List Article)) :
    groupKeys (l.foldl addToGroup g) =
      l.foldl (fun ks a => if a.source ∈ ks then ks else ks ++ [a.source])
        (groupKeys g) := by
  induction l generalizing g with
  | nil => simp
  | cons a rest ih =>
      simp only [List.foldl_cons]
      rw [ih, groupKeys_addToGroup]

/-- The dict's key order is the first-seen order of the input's sources. -/
theorem groupKeys_by_source (articles : List Article) :
    groupKeys (by_source articles) = firstSeenSources articles := by
  have h := groupKeys_foldl articles []
  simpa [by_source, groupKeys, firstSeenSources] using h

theorem hasKey_iff_mem_groupKeys (g : List (String × List Article))
    (s : String) :
    hasKey g s = true ↔ s ∈ groupKeys g := by
  simp only [hasKey, List.any_eq_true, groupKeys, List.mem_map, decide_eq_true_eq]

theorem mem_firstSeenSources_foldl (l : List Article) (ks : List String)
    (s : String)
    (h : s ∈ l.foldl
      (fun ks a => if a.source ∈ ks then ks else ks ++ [a.source]) ks) :
    s ∈ ks ∨ ∃ a ∈ l, a.source = s := by
  induction l generalizing ks with
  | nil => exact Or.inl (by simpa using h)
  | cons a rest ih =>
      rw [List.foldl_cons] at h
      rcases ih _ h with hks | ⟨a', ha', rfl⟩
      · by_cases hmem : a.source ∈ ks
        · simp [hmem] at hks
          exact Or.inl hks
        · simp [hmem] at hks
          rcases hks with hks | rfl
          · exact Or.inl hks
          · exact Or.inr ⟨a, List.mem_cons_self a rest, rfl⟩
      · exact Or.inr ⟨a', List.mem_cons_of_mem a ha', rfl⟩

/-- Every source the digest renders is the source of some input article. -/
theorem mem_firstSeenSources (articles : List Article) (s : String)
    (h : s ∈ firstSeenSources articles) : ∃ a ∈ articles, a.source = s := by
  rcases mem_firstSeenSources_foldl articles [] s h with h' | h'
  · simp at h'
  · exact h'

/-! ## Claim theorems: Digest Composer grouping, ordering, determinism -/

/-- Claim C4: the digest composer renders, for each source, exactly the
entries at indices 0 through 9 of that source's group (the input's articles
of that source in incoming relative order), excluding index 10 and beyond;
a group with at most 10 entries is rendered in full. -/
theorem digest_truncates_groups (articles : List Article) (s : String) :
    sectionArticles articles s =
      (articles.filter fun a => a.source == s).take 10 ∧
    lookupGroup (by_source articles) s =
      (articles.filter fun a => a.source == s) ∧
    ((articles.filter fun a => a.source == s).length ≤ 10 →
      sectionArticles articles s = articles.filter fun a => a.source == s) := by
  refine ⟨?_, lookupGroup_by_source articles s, ?_⟩
  · rw [sectionArticles, lookupGroup_by_source]
  · intro hlen
    rw [sectionArticles, lookupGroup_by_source]
    exact List.take_of_length_le hlen

/-- Witness for C4: twelve articles of one source — the section renders
indices 0-9 and drops 10 and 11; a two-article group is rendered whole. -/
theorem digest_truncates_groups_apply :
    sectionArticles
        ((List.range 12).map fun i =>
          Article.mk "BBC News" (toString i) "u" "s" "a" "d") "BBC News" =
      ((List.range 10).map fun i =>
        Article.mk "BBC News" (toString i) "u" "s" "a" "d") ∧
    sectionArticles
        [Article.mk "Sky News" "t0" "u" "s" "a" "d",
          Article.mk "Sky News" "t1" "u" "s" "a" "d"] "Sky News" =
      [Article.mk "Sky News" "t0" "u" "s" "a" "d",
        Article.mk "Sky News" "t1" "u" "s" "a" "d"] := by
  constructor
  · have h := (digest_truncates_groups
      ((List.range 12).map fun i =>
        Article.mk "BBC News" (toString i) "u" "s" "a" "d") "BBC News").1
    rw [h]
    decide
  · have h := (digest_truncates_groups
      [Article.mk "Sky News" "t0" "u" "s" "a" "d",
        Article.mk "Sky News" "t1" "u" "s" "a" "d"] "Sky News").2.2 (by decide)
    rw [h]
    decide

/-- Claim C5: section groups appear in the fixed preference order
`["BBC News", "The Guardian", "The Independent", "Sky News"]` restricted to
the sources present in the input, followed by every other source in
first-seen order of the input; a rendered source is always the source of
some input article. -/
theorem digest_orders_sources (articles : List Article) :
    ordered_sources articles =
      (source_order.filter fun s => (firstSeenSources articles).contains s) ++
        ((firstSeenSources articles).filter fun s =>
          !(source_order.contains s)) ∧
    ∀ s ∈ ordered_sources articles, ∃ a ∈ articles, a.source = s := by
  have hkeys := groupKeys_by_source articles
  constructor
  · unfold ordered_sources
    rw [hkeys]
    congr 1
    apply List.filter_congr
    intro s _
    rw [Bool.eq_iff_iff, hasKey_iff_mem_groupKeys, hkeys]
    simp
  · intro s hs
    unfold ordered_sources at hs
    rcases List.mem_append.1 hs with h | h
    · have hh := List.of_mem_filter h
      have hmem := (hasKey_iff_mem_groupKeys _ _).1 hh
      rw [hkeys] at hmem
      exact mem_firstSeenSources articles s hmem
    · have hmem := List.mem_of_mem_filter h
      rw [hkeys] at hmem
      exact mem_firstSeenSources articles s hmem

/-- The part of the digest that precedes the generation timestamp; it
depends only on the session label. -/
def emailPrefix (session_label : String) : String :=
  emailL1 ++ label_text session_label ++ emailL2

/-- The part of the digest that follows the generation timestamp; it
depends only on the article list. -/
def emailSuffix (articles : List Article) : String :=
  emailL3 ++ sections_html articles ++ emailL4

/-- Claim C8: two composer invocations with identical article lists and
session label differ only in the embedded generation timestamp — both
outputs factor as the same prefix and suffix around their timestamp. -/
theorem digest_deterministic_modulo_timestamp (articles : List Article)
    (label t1 t2 : String) :
    get_html_email_body articles label t1 =
        emailPrefix label ++ t1 ++ emailSuffix articles ∧
    get_html_email_body articles label t2 =
        emailPrefix label ++ t2 ++ emailSuffix articles := by
  constructor <;>
    simp [get_html_email_body, emailPrefix, emailSuffix, String.append_assoc]

/-! ## Stylesheet-free output (C9)

The digest is re-read as an alternating sequence of fixed template
segments (`lit`) and interpolated values (`var`); `chunkChars` flattens the
sequence back to the character stream of the output.  The equality of this
chunk view with `get_html_email_body` is proved below, and the absence of a
`<style>` occurrence is established chunk by chunk. -/

/-- One chunk of the rendered digest: a fixed template segment or an
interpolated value. -/
inductive Chunk where
  | lit : String → Chunk
  | var : String → Chunk
deriving DecidableEq, Repr

/-- The text a chunk contributes to the output. -/
def Chunk.text : Chunk → String
  | Chunk.lit s => s
  | Chunk.var s => s

/-- Character stream of a chunk sequence. -/
def chunkChars : List Chunk → List Char
  | [] => []
  | c :: rest => c.text.data ++ chunkChars rest

theorem chunkChars_append (xs ys : List Chunk) :
    chunkChars (xs ++ ys) = chunkChars xs ++ chunkChars ys := by
  induction xs with
  | nil => simp [chunkChars]
  | cons c rest ih => simp [chunkChars, ih]

/-- The chunk view of one table row. -/
def rowChunks (colour bg : String) (a : Article) : List Chunk :=
  [Chunk.lit rowL1, Chunk.var bg, Chunk.lit rowL2, Chunk.var a.url,
    Chunk.lit rowL3, Chunk.var colour, Chunk.lit rowL4, Chunk.var a.title,
    Chunk.lit rowL5, Chunk.var bg, Chunk.lit rowL6, Chunk.var a.summary,
    Chunk.lit rowL7, Chunk.var bg, Chunk.lit rowL8,
    Chunk.var (author_or_dash a), Chunk.lit rowL9, Chunk.var (date_slice a),
    Chunk.lit rowL10]

/-- The chunk view of a section's rows. -/
def rowsChunks (colour : String) : List Article → Nat → List Chunk
  | [], _ => []
  | a :: rest, i => rowChunks colour (bgFor i) a ++ rowsChunks colour rest (i + 1)

/-- The chunk view of one source section. -/
def sectionChunks (articles : List Article) (source : String) : List Chunk :=
  let colour := source_colours source
  let top10 := sectionArticles articles source
  [Chunk.lit secL1, Chunk.var colour, Chunk.lit secL2, Chunk.var colour,
    Chunk.lit secL3, Chunk.var source, Chunk.lit secL4,
    Chunk.var (toString top10.length), Chunk.lit secL5] ++
    rowsChunks colour top10 0 ++ [Chunk.lit secL6]

/-- The chunk view of all sections. -/
def sectionsChunksFor (articles : List Article) : List String → List Chunk
  | [] => []
  | s :: rest => sectionChunks articles s ++ sectionsChunksFor articles rest

/-- The chunk view of `label_text`. -/
def labelChunks (session_label : String) : List Chunk :=
  if session_label = "" then [] else [Chunk.lit " — ", Chunk.var session_label]

/-- The chunk view of the whole digest. -/
def emailChunks (articles : List Article) (session_label : String)
    (generated_at : String) : List Chunk :=
  [Chunk.lit emailL1] ++ labelChunks session_label ++
    [Chunk.lit emailL2, Chunk.var generated_at, Chunk.lit emailL3a,
      Chunk.lit emailL3b, Chunk.lit emailL3c] ++
    sectionsChunksFor articles (ordered_sources articles) ++
    [Chunk.lit emailL4]

theorem render_row_chars (colour bg : String) (a : Article) :
    (render_row colour bg a).data = chunkChars (rowChunks colour bg a) := by
  simp [render_row, rowChunks, chunkChars, Chunk.text, String.data_append,
    List.append_assoc]

theorem rows_html_chars (colour : String) (l : List Article) (i : Nat) :
    (rows_html colour l i).data = chunkChars (rowsChunks colour l i) := by
  induction l generalizing i with
  | nil => simp [rows_html, rowsChunks, chunkChars]
  | cons a rest ih =>
      simp [rows_html, rowsChunks, chunkChars_append, String.data_append,
        render_row_chars, ih]

theorem render_section_chars (articles : List Article) (source : String) :
    (render_section articles source).data =
      chunkChars (sectionChunks articles source) := by
  simp [render_section, sectionChunks, chunkChars_append, chunkChars,
    Chunk.text, String.data_append, List.append_assoc, rows_html_chars]

theorem sectionsFor_chars (articles : List Article) (l : List String) :
    (sectionsFor articles l).data =
      chunkChars (sectionsChunksFor articles l) := by
  induction l with
  | nil => simp [sectionsFor, sectionsChunksFor, chunkChars]
  | cons s rest ih =>
      simp [sectionsFor, sectionsChunksFor, chunkChars_append,
        String.data_append, render_section_chars, ih]

theorem label_text_chars (session_label : String) :
    (label_text session_label).data = chunkChars (labelChunks session_label) := by
  by_cases h : session_label = "" <;>
    simp [label_text, labelChunks, chunkChars, Chunk.text, String.data_append, h]

/-- The digest's character stream equals its chunk view. -/
theorem get_html_email_body_chars (articles : List Article)
    (session_label generated_at : String) :
    (get_html_email_body articles session_label generated_at).data =
      chunkChars (emailChunks articles session_label generated_at) := by
  simp [get_html_email_body, emailChunks, sections_html, emailL3,
    chunkChars_append, chunkChars, Chunk.text, String.data_append,
    List.append_assoc, sectionsFor_chars, label_text_chars]

/-- The seven characters of a block-stylesheet opening tag. -/
def stylePat : List Char := "<style>".data

/-- A template segment is good when it contains no `<style>` occurrence and
does not end in a non-empty proper front part of `<style>` (so no
occurrence can start inside it and continue past its end). -/
def litGood (s : String) : Bool :=
  !(decide (stylePat <:+: s.data)) &&
    ((List.range 6).all fun n => !(decide (stylePat.take (n + 1) <:+ s.data)))

/-- Chunk condition: good template segments, `<`-free interpolated
values. -/
def chunkOK : Chunk → Prop
  | Chunk.lit s => litGood s = true
  | Chunk.var s => '<' ∉ s.data

theorem pre_of_app (p x y : List Char) (h : p <+: x ++ y)
    (hlen : p.length ≤ x.length) : p <+: x := by
  obtain ⟨r, hr⟩ := h
  have hp : p = (x ++ y).take p.length := by
    rw [← hr, List.take_left]
  rw [List.take_append_of_le_length hlen] at hp
  rw [hp]
  exact ⟨x.drop p.length, List.take_append_drop _ x⟩

theorem app_pre_of_pre (p x y : List Char) (h : p <+: x ++ y)
    (hlen : x.length ≤ p.length) : x <+: p := by
  obtain ⟨r, hr⟩ := h
  have hx : x = (x ++ y).take x.length := (List.take_left x y).symm
  rw [← hr, List.take_append_of_le_length hlen] at hx
  rw [hx]
  exact ⟨p.drop x.length, List.take_append_drop _ p⟩

/-- An occurrence inside `a ++ b` either lies inside `b`, or starts inside
`a`: the non-empty tail `t` of `a` from the start point satisfies
`p <+: t ++ b`. -/
theorem occSplit (p a b : List Char) (h : p <:+: a ++ b) :
    p <:+: b ∨ ∃ t, t ≠ [] ∧ t <:+ a ∧ p <+: t ++ b := by
  obtain ⟨s, u, hsu⟩ := h
  by_cases hlen : a.length ≤ s.length
  · left
    have hb : a ++ b = s ++ (p ++ u) := by
      rw [← hsu]
      simp [List.append_assoc]
    have h1 : b = (s ++ (p ++ u)).drop a.length := by
      rw [← hb, List.drop_left]
    rw [List.drop_append_eq_append_drop, Nat.sub_eq_zero_of_le hlen,
      List.drop_zero] at h1
    exact ⟨s.drop a.length, u, by rw [h1]; simp [List.append_assoc]⟩
  · right
    push_neg at hlen
    refine ⟨a.drop s.length, ?_,
      ⟨a.take s.length, List.take_append_drop _ a⟩, ?_⟩
    · intro hnil
      rw [List.drop_eq_nil_iff] at hnil
      omega
    · have h2 : (a ++ b).drop s.length = a.drop s.length ++ b := by
        rw [List.drop_append_eq_append_drop,
          Nat.sub_eq_zero_of_le (le_of_lt hlen), List.drop_zero]
      have h3 : (a ++ b).drop s.length = p ++ u := by
        rw [← hsu]
        have : (s ++ p) ++ u = s ++ (p ++ u) := by simp [List.append_assoc]
        rw [this, List.drop_left]
      exact ⟨u, by rw [← h2, h3]⟩

/-- No `<style>` occurrence exists in the character stream of a chunk
sequence whose template segments are good and whose interpolated values are
`<`-free. -/
theorem stylePat_not_in_good_chunks (cs : List Chunk)
    (hok : ∀ c ∈ cs, chunkOK c) : ¬ stylePat <:+: chunkChars cs := by
  induction cs with
  | nil =>
      intro h
      have hlen := h.length_le
      simp [chunkChars, stylePat] at hlen
  | cons c rest ih =>
      intro h
      rcases occSplit _ _ _ h with h' | ⟨t, htne, hts, hpt⟩
      · exact ih (fun c' hc' => hok c' (List.mem_cons_of_mem _ hc')) h'
      · have hcok := hok c (List.mem_cons_self _ _)
        cases c with
        | lit s =>
            simp only [chunkOK, litGood, Bool.and_eq_true, Bool.not_eq_true',
              decide_eq_false_iff_not, List.all_eq_true] at hcok
            obtain ⟨hnoocc, hnoend⟩ := hcok
            by_cases hlen : stylePat.length ≤ t.length
            · have hp : stylePat <+: t := pre_of_app _ _ _ hpt hlen
              exact hnoocc (hp.isInfix.trans hts.isInfix)
            · push_neg at hlen
              have ht : t <+: stylePat := app_pre_of_pre _ _ _ hpt (le_of_lt hlen)
              obtain ⟨r, hr⟩ := ht
              have htake : stylePat.take t.length = t := by
                rw [← hr, List.take_left]
              have hlen1 : 1 ≤ t.length := by
                cases t with
                | nil => exact absurd rfl htne
                | cons x xs => simp
              have hsty : stylePat.length = 7 := by decide
              have hn : t.length - 1 ∈ List.range 6 := by
                rw [List.mem_range]
                omega
              have hcontra := hnoend _ hn
              rw [Nat.sub_add_cancel hlen1, htake] at hcontra
              exact hcontra hts
        | var s =>
            simp only [chunkOK] at hcok
            cases t with
            | nil => exact htne rfl
            | cons x xs =>
                obtain ⟨r, hr⟩ := hpt
                have h1 : (stylePat ++ r).head? = some '<' := rfl
                rw [hr] at h1
                simp only [List.cons_append, List.head?_cons,
                  Option.some.injEq] at h1
                exact hcok (h1 ▸ hts.subset (List.mem_cons_self x xs))

/-- An interpolated value occurs verbatim in the chunk stream. -/
theorem varChunk_occurs (cs : List Chunk) (s : String)
    (h : Chunk.var s ∈ cs) : s.data <:+: chunkChars cs := by
  induction cs with
  | nil => simp at h
  | cons c rest ih =>
      rcases List.mem_cons.1 h with rfl | h'
      · exact ⟨[], chunkChars rest, by simp [chunkChars, Chunk.text]⟩
      · obtain ⟨x, y, hxy⟩ := ih h'
        refine ⟨c.text.data ++ x, y, ?_⟩
        rw [chunkChars, ← hxy]
        simp [List.append_assoc]

/-- The input precondition of the amended C9: no interpolated article
field contains a `<`. -/
def fieldsClean (a : Article) : Prop :=
  '<' ∉ a.source.data ∧ '<' ∉ a.title.data ∧ '<' ∉ a.url.data ∧
    '<' ∉ a.summary.data ∧ '<' ∉ a.author.data ∧ '<' ∉ a.published_date.data

instance (a : Article) : Decidable (fieldsClean a) := by
  unfold fieldsClean
  infer_instance

theorem bgFor_clean (i : Nat) : '<' ∉ (bgFor i).data := by
  unfold bgFor
  split <;> decide

theorem source_colours_clean (s : String) : '<' ∉ (source_colours s).data := by
  unfold source_colours
  split
  · decide
  · split
    · decide
    · split
      · decide
      · split <;> decide

theorem natString_clean (n : Nat) (h : n ≤ 10) : '<' ∉ (toString n).data := by
  interval_cases n <;> decide

theorem author_or_dash_clean (a : Article) (h : '<' ∉ a.author.data) :
    '<' ∉ (author_or_dash a).data := by
  unfold author_or_dash
  split
  · decide
  · exact h

theorem date_slice_clean (a : Article) (h : '<' ∉ a.published_date.data) :
    '<' ∉ (date_slice a).data := by
  unfold date_slice
  split
  · decide
  · intro hmem
    rw [String.data_take] at hmem
    exact h (List.mem_of_mem_take hmem)

theorem sectionArticles_subset (articles : List Article) (s : String)
    (a : Article) (ha : a ∈ sectionArticles articles s) : a ∈ articles := by
  unfold sectionArticles at ha
  rw [lookupGroup_by_source] at ha
  exact List.mem_of_mem_filter (List.mem_of_mem_take ha)

/-- Every rendered source is the source of some input article (shared form
of the C5 membership fact). -/
theorem mem_ordered_sources (articles : List Article) (s : String)
    (hs : s ∈ ordered_sources articles) : ∃ a ∈ articles, a.source = s := by
  unfold ordered_sources at hs
  rcases List.mem_append.1 hs with h | h
  · have hh := List.of_mem_filter h
    have hmem := (hasKey_iff_mem_groupKeys _ _).1 hh
    rw [groupKeys_by_source] at hmem
    exact mem_firstSeenSources articles s hmem
  · have hmem := List.mem_of_mem_filter h
    rw [groupKeys_by_source] at hmem
    exact mem_firstSeenSources articles s hmem

theorem rowChunks_ok (colour bg : String) (hcol : '<' ∉ colour.data)
    (hbg : '<' ∉ bg.data) (a : Article) (hafc : fieldsClean a) :
    ∀ c ∈ rowChunks colour bg a, chunkOK c := by
  obtain ⟨h1, h2, h3, h4, h5, h6⟩ := hafc
  intro c hc
  simp only [rowChunks, List.mem_cons, List.not_mem_nil, or_false] at hc
  rcases hc with rfl | rfl | rfl | rfl | rfl | rfl | rfl | rfl | rfl | rfl |
    rfl | rfl | rfl | rfl | rfl | rfl | rfl | rfl | rfl
  · exact (by decide : litGood rowL1 = true)
  · exact hbg
  · exact (by decide : litGood rowL2 = true)
  · exact h3
  · exact (by decide : litGood rowL3 = true)
  · exact hcol
  · exact (by decide : litGood rowL4 = true)
  · exact h2
  · exact (by decide : litGood rowL5 = true)
  · exact hbg
  · exact (by decide : litGood rowL6 = true)
  · exact h4
  · exact (by decide : litGood rowL7 = true)
  · exact hbg
  · exact (by decide : litGood rowL8 = true)
  · exact author_or_dash_clean a h5
  · exact (by decide : litGood rowL9 = true)
  · exact date_slice_clean a h6
  · exact (by decide : litGood rowL10 = true)

theorem rowsChunks_ok (colour : String) (hcol : '<' ∉ colour.data)
    (l : List Article) (hl : ∀ a ∈ l, fieldsClean a) (i : Nat) :
    ∀ c ∈ rowsChunks colour l i, chunkOK c := by
  induction l generalizing i with
  | nil => intro c hc; simp [rowsChunks] at hc
  | cons a rest ih =>
      intro c hc
      rw [rowsChunks] at hc
      rcases List.mem_append.1 hc with h | h
      · exact rowChunks_ok colour (bgFor i) hcol (bgFor_clean i) a
          (hl a (List.mem_cons_self _ _)) c h
      · exact ih (fun a' ha' => hl a' (List.mem_cons_of_mem _ ha')) (i + 1) c h

theorem sectionChunks_ok (articles : List Article)
    (hl : ∀ a ∈ articles, fieldsClean a) (s : String)
    (hs : ∃ a ∈ articles, a.source = s) :
    ∀ c ∈ sectionChunks articles s, chunkOK c := by
  intro c hc
  have hsclean : '<' ∉ s.data := by
    obtain ⟨a, ha, rfl⟩ := hs
    exact (hl a ha).1
  have htop : ∀ a ∈ sectionArticles articles s, fieldsClean a :=
    fun a ha => hl a (sectionArticles_subset articles s a ha)
  simp only [sectionChunks, List.append_assoc, List.mem_append,
    List.mem_cons, List.not_mem_nil, or_false] at hc
  rcases hc with (rfl | rfl | rfl | rfl | rfl | rfl | rfl | rfl | rfl) | hc | rfl
  · exact (by decide : litGood secL1 = true)
  · exact source_colours_clean s
  · exact (by decide : litGood secL2 = true)
  · exact source_colours_clean s
  · exact (by decide : litGood secL3 = true)
  · exact hsclean
  · exact (by decide : litGood secL4 = true)
  · exact natString_clean _ (List.length_take_le 10 _)
  · exact (by decide : litGood secL5 = true)
  · exact rowsChunks_ok (source_colours s) (source_colours_clean s)
      (sectionArticles articles s) htop 0 c hc
  · exact (by decide : litGood secL6 = true)

theorem sectionsChunksFor_ok (articles : List Article)
    (hl : ∀ a ∈ articles, fieldsClean a) (ss : List String)
    (hss : ∀ s ∈ ss, ∃ a ∈ articles, a.source = s) :
    ∀ c ∈ sectionsChunksFor articles ss, chunkOK c := by
  induction ss with
  | nil => intro c hc; simp [sectionsChunksFor] at hc
  | cons s rest ih =>
      intro c hc
      rw [sectionsChunksFor] at hc
      rcases List.mem_append.1 hc with h | h
      · exact sectionChunks_ok articles hl s (hss s (List.mem_cons_self _ _)) c h
      · exact ih (fun s' hs' => hss s' (List.mem_cons_of_mem _ hs')) c h

theorem emailChunks_ok (articles : List Article) (label ts : String)
    (hl : ∀ a ∈ articles, fieldsClean a) (hlabel : '<' ∉ label.data)
    (hts : '<' ∉ ts.data) :
    ∀ c ∈ emailChunks articles label ts, chunkOK c := by
  intro c hc
  simp only [emailChunks, List.append_assoc, List.mem_append, List.mem_cons,
    List.not_mem_nil, or_false] at hc
  rcases hc with rfl | hclabel | (rfl | rfl | rfl | rfl | rfl) | hcsec | rfl
  · exact (by decide : litGood emailL1 = true)
  · unfold labelChunks at hclabel
    by_cases h : label = ""
    · rw [if_pos h] at hclabel
      simp at hclabel
    · rw [if_neg h] at hclabel
      simp only [List.mem_cons, List.not_mem_nil, or_false] at hclabel
      rcases hclabel with rfl | rfl
      · exact (by decide : litGood " — " = true)
      · exact hlabel
  · exact (by decide : litGood emailL2 = true)
  · exact hts
  · exact (by decide : litGood emailL3a = true)
  · exact (by decide : litGood emailL3b = true)
  · exact (by decide : litGood emailL3c = true)
  · exact sectionsChunksFor_ok articles hl (ordered_sources articles)
      (fun s hs => mem_ordered_sources articles s hs) c hcsec
  · exact (by decide : litGood emailL4 = true)

/-- An article whose title *is* a stylesheet opening tag. -/
def styleTitleArticle : Article :=
  ⟨"BBC News", "<style>", "u", "s", "a", "d"⟩

/-- Claim C9 counterexample: the composer interpolates fields verbatim
(no HTML escaping), so an article whose title contains `<style>` puts a
`<style>` tag substring into the output — the claim is false for arbitrary
inputs. -/
theorem digest_style_injection :
    stylePat <:+:
      (get_html_email_body [styleTitleArticle] "" "ts").data := by
  rw [get_html_email_body_chars]
  exact varChunk_occurs _ "<style>" (by decide)

/-- Claim C9 (amended): for every article list, session label, and
generation timestamp whose interpolated text fields contain no `<`
character (as upstream sanitization produces), the digest fragment contains
no `<style>` tag substring — its presentation is inline-only. -/
theorem digest_no_style_block (articles : List Article) (label ts : String)
    (hfields : ∀ a ∈ articles, fieldsClean a) (hlabel : '<' ∉ label.data)
    (hts : '<' ∉ ts.data) :
    ¬ stylePat <:+: (get_html_email_body articles label ts).data := by
  rw [get_html_email_body_chars]
  exact stylePat_not_in_good_chunks _
    (emailChunks_ok articles label ts hfields hlabel hts)

/-- Witness for C9 at a concrete clean input. -/
theorem digest_no_style_block_apply :
    ¬ stylePat <:+:
      (get_html_email_body
        [Article.mk "BBC News" "Headline" "u" "Summary" "Alice" "2026-02-18",
          Article.mk "Sky News" "Other" "u2" "S2" "" ""]
        "Morning Briefing" "18 February 2026, 07:00 UTC").data :=
  digest_no_style_block
    [Article.mk "BBC News" "Headline" "u" "Summary" "Alice" "2026-02-18",
      Article.mk "Sky News" "Other" "u2" "S2" "" ""]
    "Morning Briefing" "18 February 2026, 07:00 UTC"
    (by decide) (by decide) (by decide)

end UKNews
